import Mathlib

/-!
Verification of the date-normalization core and offset-resolver logic of
the sunrisesunset command-line utility (`SunriseSunset.py`).

The embedding models:
* Python's `datetime.date` values (proleptic Gregorian calendar, years
  1..9999) together with `date + timedelta(days=n)` arithmetic,
* `datetime.strptime` restricted to the ten format strings the program
  uses (`"%m/%d"`, `"%m-%d"`, `"%Y-%m-%d"`, `"%m/%d/%Y"`, `"%m-%d-%Y"` and
  the day-first mirrors), following CPython's `_strptime` field regexes,
* `transform_date(arg, use_DDMMformat)` (lines 215-269 of the source),
  with the process-wide current date passed in as an explicit `today`
  argument, returning `Except` to model `ValueError` / `OverflowError`,
* the response-validation logic of `get_utc_offset` (lines 135-211), with
  the HTTP transport modelled as an explicit outcome argument.

String handling models the ASCII behaviour of `str.lower`, `str.split`
and the `\d` character class, which covers every input the specification
discusses.
-/

namespace SunSpec

/-! ## Calendar model: Python `datetime.date` -/

/-- Leap-year rule of the proleptic Gregorian calendar, as used by
`datetime` (divisible by 4, except centuries not divisible by 400). -/
def isLeap (y : Nat) : Bool :=
  y % 4 == 0 && (y % 100 != 0 || y % 400 == 0)

/-- Length of a month, matching `calendar`/`datetime`. -/
def daysInMonth (y m : Nat) : Nat :=
  match m with
  | 2 => if isLeap y then 29 else 28
  | 4 => 30
  | 6 => 30
  | 9 => 30
  | 11 => 30
  | _ => 31

/-- A year-month-day triple; only triples satisfying `validDate` are
constructible by `datetime.date`. -/
structure Date where
  year : Nat
  month : Nat
  day : Nat
deriving DecidableEq

/-- The constructor check performed by `datetime.date(y, m, d)`:
`MINYEAR = 1`, `MAXYEAR = 9999`, month in 1..12, day in 1..month length. -/
def validDate (d : Date) : Prop :=
  1 ≤ d.year ∧ d.year ≤ 9999 ∧ 1 ≤ d.month ∧ d.month ≤ 12 ∧
    1 ≤ d.day ∧ d.day ≤ daysInMonth d.year d.month

instance (d : Date) : Decidable (validDate d) := by
  unfold validDate; infer_instance

/-- Days before month `m` in year `y` (0 for January). -/
def daysBeforeMonth (y m : Nat) : Nat :=
  (match m with
   | 1 => 0 | 2 => 31 | 3 => 59 | 4 => 90 | 5 => 120 | 6 => 151
   | 7 => 181 | 8 => 212 | 9 => 243 | 10 => 273 | 11 => 304 | _ => 334)
  + (if 3 ≤ m ∧ isLeap y = true then 1 else 0)

/-- Proleptic Gregorian ordinal, as `datetime.date.toordinal`
(0001-01-01 has ordinal 1). -/
def toOrdinal (d : Date) : Nat :=
  365 * (d.year - 1) + (d.year - 1) / 4 + (d.year - 1) / 400
    + daysBeforeMonth d.year d.month + d.day - (d.year - 1) / 100

/-- Ordinal of `date.max = 9999-12-31`; beyond it `date` arithmetic
raises `OverflowError`. -/
def maxOrdinal : Nat := toOrdinal ⟨9999, 12, 31⟩

/-- Calendar successor (rolls over months and years). -/
def nextDay (d : Date) : Date :=
  if d.day < daysInMonth d.year d.month then ⟨d.year, d.month, d.day + 1⟩
  else if d.month < 12 then ⟨d.year, d.month + 1, 1⟩
  else ⟨d.year + 1, 1, 1⟩

/-- Calendar predecessor (rolls over months and years). -/
def prevDay (d : Date) : Date :=
  if 1 < d.day then ⟨d.year, d.month, d.day - 1⟩
  else if 1 < d.month then ⟨d.year, d.month - 1, daysInMonth d.year (d.month - 1)⟩
  else ⟨d.year - 1, 12, 31⟩

/-- `d + timedelta(days = n)`: `none` models the `OverflowError` raised
when the result falls outside `date.min .. date.max`. -/
def addDays (d : Date) (n : Int) : Option Date :=
  if 1 ≤ (toOrdinal d : Int) + n ∧ (toOrdinal d : Int) + n ≤ (maxOrdinal : Int) then
    some (match n with
          | .ofNat k => nextDay^[k] d
          | .negSucc k => prevDay^[k + 1] d)
  else none

/-! ### Calendar lemmas -/

theorem daysInMonth_bounds (y m : Nat) (h1 : 1 ≤ m) (h2 : m ≤ 12) :
    28 ≤ daysInMonth y m ∧ daysInMonth y m ≤ 31 := by
  interval_cases m <;> simp [daysInMonth] <;> split <;> omega

theorem daysBeforeMonth_succ (y m : Nat) (h1 : 1 ≤ m) (h2 : m ≤ 11) :
    daysBeforeMonth y (m + 1) = daysBeforeMonth y m + daysInMonth y m := by
  interval_cases m <;>
    simp [daysBeforeMonth, daysInMonth] <;> split <;> simp <;> omega

theorem daysBeforeMonth_jan (y : Nat) : daysBeforeMonth y 1 = 0 := rfl

theorem daysBeforeMonth_dec (y : Nat) :
    daysBeforeMonth y 12 = 334 + (if isLeap y = true then 1 else 0) := by
  simp [daysBeforeMonth]

theorem maxOrdinal_eq : maxOrdinal = 3652059 := by decide

theorem toOrdinal_jan1 (k : Nat) (hk : 1 ≤ k) :
    toOrdinal ⟨k + 1, 1, 1⟩ = toOrdinal ⟨k, 12, 31⟩ + 1 := by
  obtain ⟨j, rfl⟩ : ∃ j, k = j + 1 := ⟨k - 1, by omega⟩
  clear hk
  simp only [toOrdinal, daysBeforeMonth_jan, daysBeforeMonth_dec, isLeap,
    Bool.and_eq_true, Bool.or_eq_true, beq_iff_eq, bne_iff_ne,
    decide_eq_true_eq, Nat.add_sub_cancel]
  have h4 := Nat.succ_div j 4
  have h100 := Nat.succ_div j 100
  have h400 := Nat.succ_div j 400
  simp only [Nat.dvd_iff_mod_eq_zero] at h4 h100 h400
  rw [h4, h100, h400]
  clear h4 h100 h400
  split_ifs <;> omega

theorem toOrdinal_nextDay (d : Date) (hv : validDate d)
    (hlt : toOrdinal d < maxOrdinal) :
    validDate (nextDay d) ∧ toOrdinal (nextDay d) = toOrdinal d + 1 := by
  rw [maxOrdinal_eq] at hlt
  obtain ⟨y, m, dd⟩ := d
  obtain ⟨hy1, hy2, hm1, hm2, hd1, hd2⟩ := hv
  simp only at hy1 hy2 hm1 hm2 hd1 hd2
  by_cases h1 : dd < daysInMonth y m
  · -- same month
    have hn : nextDay ⟨y, m, dd⟩ = ⟨y, m, dd + 1⟩ := by
      simp [nextDay, h1]
    have hval : validDate ⟨y, m, dd + 1⟩ := by
      simp only [validDate]; omega
    have hord : toOrdinal ⟨y, m, dd + 1⟩ = toOrdinal ⟨y, m, dd⟩ + 1 := by
      simp only [toOrdinal]; omega
    rw [hn]; exact ⟨hval, hord⟩
  · have hdd : dd = daysInMonth y m := by omega
    by_cases h2 : m < 12
    · -- next month
      have hn : nextDay ⟨y, m, dd⟩ = ⟨y, m + 1, 1⟩ := by
        simp [nextDay, h1, h2]
      have hb := daysInMonth_bounds y (m + 1) (by omega) (by omega)
      have hval : validDate ⟨y, m + 1, 1⟩ := by
        simp only [validDate]; omega
      have hsucc := daysBeforeMonth_succ y m hm1 (by omega)
      have hord : toOrdinal ⟨y, m + 1, 1⟩ = toOrdinal ⟨y, m, dd⟩ + 1 := by
        simp only [toOrdinal]; omega
      rw [hn]; exact ⟨hval, hord⟩
    · -- next year
      have hm : m = 12 := by omega
      subst hm
      have hdd31 : dd = 31 := by
        simpa [daysInMonth] using hdd
      subst hdd31
      have hn : nextDay ⟨y, 12, 31⟩ = ⟨y + 1, 1, 1⟩ := by
        simp [nextDay, daysInMonth]
      have hy9998 : y ≤ 9998 := by
        by_contra hcon
        have hy' : y = 9999 := by omega
        subst hy'
        have hfix : toOrdinal ⟨9999, 12, 31⟩ = 3652059 := by decide
        omega
      have hval : validDate ⟨y + 1, 1, 1⟩ := by
        simp only [validDate, daysInMonth]; omega
      rw [hn]; exact ⟨hval, toOrdinal_jan1 y hy1⟩

theorem toOrdinal_prevDay (d : Date) (hv : validDate d)
    (hgt : 2 ≤ toOrdinal d) :
    validDate (prevDay d) ∧ toOrdinal (prevDay d) + 1 = toOrdinal d := by
  obtain ⟨y, m, dd⟩ := d
  obtain ⟨hy1, hy2, hm1, hm2, hd1, hd2⟩ := hv
  simp only at hy1 hy2 hm1 hm2 hd1 hd2
  by_cases h1 : 1 < dd
  · -- same month
    have hn : prevDay ⟨y, m, dd⟩ = ⟨y, m, dd - 1⟩ := by
      simp [prevDay, h1]
    have hval : validDate ⟨y, m, dd - 1⟩ := by
      simp only [validDate]; omega
    have hord : toOrdinal ⟨y, m, dd - 1⟩ + 1 = toOrdinal ⟨y, m, dd⟩ := by
      simp only [toOrdinal]; omega
    rw [hn]; exact ⟨hval, hord⟩
  · have hdd : dd = 1 := by omega
    subst hdd
    by_cases h2 : 1 < m
    · -- previous month
      obtain ⟨m', rfl⟩ : ∃ m', m = m' + 1 := ⟨m - 1, by omega⟩
      have hn : prevDay ⟨y, m' + 1, 1⟩ = ⟨y, m', daysInMonth y m'⟩ := by
        simp [prevDay, h2]
      have hb := daysInMonth_bounds y m' (by omega) (by omega)
      have hval : validDate ⟨y, m', daysInMonth y m'⟩ := by
        simp only [validDate]; omega
      have hsucc := daysBeforeMonth_succ y m' (by omega) (by omega)
      have hord : toOrdinal ⟨y, m', daysInMonth y m'⟩ + 1 = toOrdinal ⟨y, m' + 1, 1⟩ := by
        simp only [toOrdinal]; omega
      rw [hn]; exact ⟨hval, hord⟩
    · -- previous year
      have hm : m = 1 := by omega
      subst hm
      have hy2' : 2 ≤ y := by
        by_contra hcon
        have hy' : y = 1 := by omega
        subst hy'
        have hfix : toOrdinal ⟨1, 1, 1⟩ = 1 := by decide
        omega
      obtain ⟨k, rfl⟩ : ∃ k, y = k + 1 := ⟨y - 1, by omega⟩
      have hn : prevDay ⟨k + 1, 1, 1⟩ = ⟨k, 12, 31⟩ := by
        simp [prevDay]
      have hval : validDate ⟨k, 12, 31⟩ := by
        simp only [validDate, daysInMonth]; omega
      rw [hn]
      exact ⟨hval, (toOrdinal_jan1 k (by omega)).symm⟩

theorem nextDay_iter (k : Nat) : ∀ d : Date, validDate d →
    toOrdinal d + k ≤ maxOrdinal →
    validDate (nextDay^[k] d) ∧ toOrdinal (nextDay^[k] d) = toOrdinal d + k := by
  induction k with
  | zero => intro d hv _; simpa using hv
  | succ k ih =>
    intro d hv hle
    have hstep := toOrdinal_nextDay d hv (by omega)
    rw [Function.iterate_succ_apply]
    have := ih (nextDay d) hstep.1 (by omega)
    exact ⟨this.1, by omega⟩

theorem prevDay_iter (k : Nat) : ∀ d : Date, validDate d →
    k < toOrdinal d →
    validDate (prevDay^[k] d) ∧ toOrdinal (prevDay^[k] d) + k = toOrdinal d := by
  induction k with
  | zero => intro d hv _; simpa using hv
  | succ k ih =>
    intro d hv hlt
    have hstep := toOrdinal_prevDay d hv (by omega)
    rw [Function.iterate_succ_apply]
    have := ih (prevDay d) hstep.1 (by omega)
    exact ⟨this.1, by omega⟩

theorem addDays_spec (d : Date) (n : Int) (hv : validDate d)
    (hlo : 1 ≤ (toOrdinal d : Int) + n)
    (hhi : (toOrdinal d : Int) + n ≤ (maxOrdinal : Int)) :
    ∃ e, addDays d n = some e ∧ validDate e ∧
      (toOrdinal e : Int) = toOrdinal d + n := by
  unfold addDays
  rw [if_pos ⟨hlo, hhi⟩]
  rcases n with k | k
  · simp only [Int.ofNat_eq_natCast] at hlo hhi
    have hle : toOrdinal d + k ≤ maxOrdinal := by omega
    have hit := nextDay_iter k d hv hle
    refine ⟨nextDay^[k] d, rfl, hit.1, ?_⟩
    have h2 := hit.2
    simp only [Int.ofNat_eq_natCast]
    omega
  · rw [Int.negSucc_eq] at hlo hhi
    have hk : k + 1 < toOrdinal d := by omega
    have hit := prevDay_iter (k + 1) d hv hk
    refine ⟨prevDay^[k + 1] d, rfl, hit.1, ?_⟩
    have h2 := hit.2
    rw [Int.negSucc_eq]
    omega

theorem addDays_some_valid (d e : Date) (n : Int) (hv : validDate d)
    (h : addDays d n = some e) :
    validDate e ∧ (toOrdinal e : Int) = toOrdinal d + n := by
  have hrange : 1 ≤ (toOrdinal d : Int) + n ∧
      (toOrdinal d : Int) + n ≤ (maxOrdinal : Int) := by
    by_contra hc
    unfold addDays at h
    rw [if_neg hc] at h
    exact Option.noConfusion h
  obtain ⟨e', he', hve', hoe'⟩ := addDays_spec d n hv hrange.1 hrange.2
  rw [h, Option.some_inj] at he'
  rw [he']
  exact ⟨hve', hoe'⟩

/-! ## String model

ASCII behaviour of the Python string operations `transform_date` uses:
`str.split()` (split on whitespace), `str.lower`, and the decimal-digit
character class of `int` and the `re`/`_strptime` regexes. -/

/-- The six ASCII characters `str.split()` treats as whitespace. -/
def isPySpace (c : Char) : Bool :=
  c.toNat == 32 || c.toNat == 9 || c.toNat == 10 ||
    c.toNat == 13 || c.toNat == 11 || c.toNat == 12

/-- ASCII behaviour of `str.lower` on a single character. -/
def lowerCh (c : Char) : Char :=
  if 65 ≤ c.toNat ∧ c.toNat ≤ 90 then Char.ofNat (c.toNat + 32) else c

/-- ASCII decimal digit. -/
def isDigitCh (c : Char) : Bool :=
  48 ≤ c.toNat && c.toNat ≤ 57

/-- Value of a digit string (as computed by `int` on an all-digit string,
ignoring leading zeros). -/
def natOfDigits (l : List Char) : Nat :=
  l.foldl (fun a c => 10 * a + (c.toNat - 48)) 0

/-- Line 232 of the source: `arg = ''.join(arg.lower().split())`
(lower-case, then drop all whitespace). -/
def normalizeArg (s : String) : List Char :=
  (s.data.map lowerCh).filter (fun c => !isPySpace c)

/-- `re.fullmatch(r't([+-]\d+)?', arg)` followed by `int(offset)`
(lines 235-239): `none` = no match, `some none` = bare `t`,
`some (some n)` = signed offset. -/
def matchRel (l : List Char) : Option (Option Int) :=
  match l with
  | [] => none
  | c :: rest =>
    if c = 't' then
      match rest with
      | [] => some none
      | sgn :: ds =>
        if (sgn = '+' ∨ sgn = '-') ∧ ds ≠ [] ∧ ds.all isDigitCh = true then
          some (some (if sgn = '-' then -(natOfDigits ds : Int) else (natOfDigits ds : Int)))
        else none
    else none

/-! ## strptime model

CPython's `_strptime` compiles each format string into a regex built from
field regexes (`%m` ↦ `1[0-2]|0[1-9]|[1-9]`, `%d` ↦
`3[01]|[12]\d|0[1-9]|[1-9]`, `%Y` ↦ `\d\d\d\d`) joined by the literal
separators, and requires the whole string to be consumed.  Because the
fields match only digits and the separators are non-digits, the match
succeeds exactly when splitting the input at the separator character
yields the right number of parts, each wholly matching its field regex.
The parsed fields are then handed to `datetime(year, month, day)` with
the year defaulting to 1900; an invalid calendar date raises
`ValueError`. -/

/-- Helper for `splitSep`: first part and remaining parts. -/
def splitSepAux (sep : Char) : List Char → List Char × List (List Char)
  | [] => ([], [])
  | c :: rest =>
    if c = sep then ([], (splitSepAux sep rest).1 :: (splitSepAux sep rest).2)
    else (c :: (splitSepAux sep rest).1, (splitSepAux sep rest).2)

/-- Split a character list at every occurrence of `sep`
(the separator structure of the compiled format regex). -/
def splitSep (sep : Char) (l : List Char) : List (List Char) :=
  (splitSepAux sep l).1 :: (splitSepAux sep l).2

/-- The `%m` field regex `1[0-2]|0[1-9]|[1-9]`: one or two digits with
value 1..12. -/
def monthField (l : List Char) : Option Nat :=
  if l.all isDigitCh = true ∧ 1 ≤ l.length ∧ l.length ≤ 2 ∧
      1 ≤ natOfDigits l ∧ natOfDigits l ≤ 12 then
    some (natOfDigits l)
  else none

/-- The `%d` field regex `3[01]|[12]\d|0[1-9]|[1-9]`: one or two digits
with value 1..31. -/
def dayField (l : List Char) : Option Nat :=
  if l.all isDigitCh = true ∧ 1 ≤ l.length ∧ l.length ≤ 2 ∧
      1 ≤ natOfDigits l ∧ natOfDigits l ≤ 31 then
    some (natOfDigits l)
  else none

/-- The `%Y` field regex `\d\d\d\d`: exactly four digits. -/
def yearField (l : List Char) : Option Nat :=
  if l.all isDigitCh = true ∧ l.length = 4 then
    some (natOfDigits l)
  else none

/-- `datetime.date(y, m, d)`: `none` models the `ValueError` raised for
an invalid calendar date. -/
def mkDate (y m d : Nat) : Option Date :=
  if validDate ⟨y, m, d⟩ then some ⟨y, m, d⟩ else none

/-- The ten format strings the program uses (line 249 when
`use_DDMMformat`, line 252 otherwise). -/
inductive Fmt where
  | md_slash   -- "%m/%d"
  | md_dash    -- "%m-%d"
  | ymd_dash   -- "%Y-%m-%d"
  | mdy_slash  -- "%m/%d/%Y"
  | mdy_dash   -- "%m-%d-%Y"
  | dm_slash   -- "%d/%m"
  | dm_dash    -- "%d-%m"
  | ydm_dash   -- "%Y-%d-%m"
  | dmy_slash  -- "%d/%m/%Y"
  | dmy_dash   -- "%d-%m-%Y"
deriving DecidableEq

/-- Field extraction of the compiled format regex: the split parts must
match the field regexes in the format's order; a missing `%Y` defaults
the year to 1900 (`_strptime`'s default). -/
def rawFields (f : Fmt) (l : List Char) : Option (Nat × Nat × Nat) :=
  match f with
  | .md_slash =>
    match splitSep '/' l with
    | [a, b] => (monthField a).bind fun m => (dayField b).bind fun d =>
        some (1900, m, d)
    | _ => none
  | .md_dash =>
    match splitSep '-' l with
    | [a, b] => (monthField a).bind fun m => (dayField b).bind fun d =>
        some (1900, m, d)
    | _ => none
  | .ymd_dash =>
    match splitSep '-' l with
    | [a, b, c] => (yearField a).bind fun y => (monthField b).bind fun m =>
        (dayField c).bind fun d => some (y, m, d)
    | _ => none
  | .mdy_slash =>
    match splitSep '/' l with
    | [a, b, c] => (monthField a).bind fun m => (dayField b).bind fun d =>
        (yearField c).bind fun y => some (y, m, d)
    | _ => none
  | .mdy_dash =>
    match splitSep '-' l with
    | [a, b, c] => (monthField a).bind fun m => (dayField b).bind fun d =>
        (yearField c).bind fun y => some (y, m, d)
    | _ => none
  | .dm_slash =>
    match splitSep '/' l with
    | [a, b] => (dayField a).bind fun d => (monthField b).bind fun m =>
        some (1900, m, d)
    | _ => none
  | .dm_dash =>
    match splitSep '-' l with
    | [a, b] => (dayField a).bind fun d => (monthField b).bind fun m =>
        some (1900, m, d)
    | _ => none
  | .ydm_dash =>
    match splitSep '-' l with
    | [a, b, c] => (yearField a).bind fun y => (dayField b).bind fun d =>
        (monthField c).bind fun m => some (y, m, d)
    | _ => none
  | .dmy_slash =>
    match splitSep '/' l with
    | [a, b, c] => (dayField a).bind fun d => (monthField b).bind fun m =>
        (yearField c).bind fun y => some (y, m, d)
    | _ => none
  | .dmy_dash =>
    match splitSep '-' l with
    | [a, b, c] => (dayField a).bind fun d => (monthField b).bind fun m =>
        (yearField c).bind fun y => some (y, m, d)
    | _ => none

/-- `datetime.strptime(arg, fmt)` for the program's formats: field
extraction followed by the `datetime` constructor check. -/
def strptime (f : Fmt) (l : List Char) : Option Date :=
  (rawFields f l).bind fun t => mkDate t.1 t.2.1 t.2.2

/-- The ordered candidate list (lines 247-252). -/
def formats (use_DDMMformat : Bool) : List Fmt :=
  if use_DDMMformat then
    [.dm_slash, .dm_dash, .ydm_dash, .dmy_slash, .dmy_dash]
  else
    [.md_slash, .md_dash, .ymd_dash, .mdy_slash, .mdy_dash]

/-- One iteration of the parsing loop (lines 259-263): `strptime`, then
`dt.replace(year=today.year)` for the two-field day-first formats only
(the `fmt in ("%d/%m", "%d-%m")` test on line 261); `replace` re-runs
the constructor check. -/
def applyFmt (today : Date) (f : Fmt) (l : List Char) : Option Date :=
  (strptime f l).bind fun d =>
    if f = .dm_slash ∨ f = .dm_dash then mkDate today.year d.month d.day
    else some d

/-- The `for fmt in formats` loop with `try/except ValueError: continue`
(lines 254-265): first success wins. -/
def tryFormats (today : Date) : List Fmt → List Char → Option Date
  | [], _ => none
  | f :: rest, l =>
    match applyFmt today f l with
    | some d => some d
    | none => tryFormats today rest l

/-! ## Serialization: `strftime("%Y-%m-%d")` -/

/-- Decimal digit character. -/
def digitChar (k : Nat) : Char :=
  match k with
  | 0 => '0' | 1 => '1' | 2 => '2' | 3 => '3' | 4 => '4'
  | 5 => '5' | 6 => '6' | 7 => '7' | 8 => '8' | 9 => '9'
  | _ => '*'

/-- Two-digit zero-padded field. -/
def pad2 (n : Nat) : List Char :=
  [digitChar (n / 10 % 10), digitChar (n % 10)]

/-- Four-digit zero-padded field. -/
def pad4 (n : Nat) : List Char :=
  [digitChar (n / 1000 % 10), digitChar (n / 100 % 10),
   digitChar (n / 10 % 10), digitChar (n % 10)]

/-- `d.strftime("%Y-%m-%d")`. -/
def serialize (d : Date) : String :=
  String.mk (pad4 d.year ++ '-' :: (pad2 d.month ++ '-' :: pad2 d.day))

/-! ## `transform_date` (lines 215-269) -/

/-- The two exception kinds `transform_date` can raise: `ValueError`
with its message (line 269), and the `OverflowError` that propagates out
of `date + timedelta` for offsets whose result leaves the supported
calendar range. -/
inductive PyError where
  | valueError (msg : String)
  | overflowError
deriving DecidableEq

instance : DecidableEq (Except PyError String) := fun a b =>
  match a, b with
  | .ok x, .ok y => decidable_of_iff (x = y) (by simp)
  | .error x, .error y => decidable_of_iff (x = y) (by simp)
  | .ok _, .error _ => isFalse (by simp)
  | .error _, .ok _ => isFalse (by simp)

/-- Lines 254-269: the format loop, then
`raise ValueError(f"Could not parse date: {arg}")`. -/
def parse_absolute (today : Date) (mode : Bool) (l : List Char) :
    Except PyError String :=
  match tryFormats today (formats mode) l with
  | some d => .ok (serialize d)
  | none => .error (.valueError ("Could not parse date: " ++ String.mk l))

/-- Lines 235-265: the relative-date branch, falling through to the
absolute-date loop. -/
def parse_nonempty (today : Date) (mode : Bool) (l : List Char) :
    Except PyError String :=
  match matchRel l with
  | some (some off) =>
    match addDays today off with
    | some d => .ok (serialize d)
    | none => .error .overflowError
  | some none => .ok (serialize today)
  | none => parse_absolute today mode l

/-- `transform_date(arg, use_DDMMformat)` with the process-wide
`date.today()` passed explicitly.  `arg = none` models `None`; the
`if not arg` test (line 228) also catches the empty string. -/
def transform_date (arg : Option String) (use_DDMMformat : Bool)
    (today : Date) : Except PyError String :=
  match arg with
  | none => .ok (serialize today)
  | some s =>
    if s = "" then .ok (serialize today)
    else parse_nonempty today use_DDMMformat (normalizeArg s)

/-! ## `get_utc_offset` (lines 135-211)

The HTTP transport (session, retries, timeout) is modelled as an
explicit outcome argument; the JSON value bound to `"gmtOffset"` is
modelled as a `PyJson`.  Numbers are modelled as rationals; for the
range comparisons against -12 and 14 this agrees with CPython float
arithmetic on all provider-shaped inputs. -/

/-- A JSON value as decoded by `response.json()`. -/
inductive PyJson where
  | jnum (q : ℚ)
  | jbool (b : Bool)
  | jstr (s : String)
  | jnull
  | jarr
  | jobj
deriving DecidableEq

/-- Outcome of the `http.get` call: a `requests` exception (after the
adapter's retries) or a decoded JSON body, in which `"gmtOffset"` may be
absent. -/
inductive HttpOutcome where
  | reqError
  | response (gmtOffset : Option PyJson)
deriving DecidableEq

/-- Observable result of `get_utc_offset`: a returned offset, a returned
`None`, or an uncaught exception. -/
inductive OffsetResult where
  | retOffset (q : ℚ)
  | retNone
  | typeError
  | keyError
deriving DecidableEq

/-- Values `v` for which `v / 3600` is defined in Python (`int`, `float`
and `bool` support true division; everything else raises `TypeError`). -/
def numVal : PyJson → Option ℚ
  | .jnum q => some q
  | .jbool b => some (if b then 1 else 0)
  | _ => none

/-- Lines 148-211: the guard on missing coordinates, then the request,
then `utc_offset = data["gmtOffset"]/3600` and the range check
`utc_offset < -12 or utc_offset > 14`.  The `"gmtOffset" not in data`
and `isinstance` checks on lines 187-195 are unreachable after a
successful division and are not observable. -/
def get_utc_offset (latitude longitude : Option ℚ) (http : HttpOutcome) :
    OffsetResult :=
  if latitude = none ∨ longitude = none then .retNone
  else
    match http with
    | .reqError => .retNone
    | .response g =>
      match g with
      | none => .keyError
      | some v =>
        match numVal v with
        | none => .typeError
        | some q =>
          if q / 3600 < -12 ∨ q / 3600 > 14 then .retNone
          else .retOffset (q / 3600)

/-! ## Character and digit lemmas -/

theorem isDigitCh_iff (c : Char) :
    isDigitCh c = true ↔ 48 ≤ c.toNat ∧ c.toNat ≤ 57 := by
  simp [isDigitCh]

theorem digit_props (c : Char) (h : isDigitCh c = true) :
    lowerCh c = c ∧ isPySpace c = false ∧ c ≠ '/' ∧ c ≠ '-' ∧ c ≠ 't' := by
  rw [isDigitCh_iff] at h
  refine ⟨?_, ?_, ?_, ?_, ?_⟩
  · unfold lowerCh
    rw [if_neg]
    omega
  · simp only [isPySpace, Bool.or_eq_false_iff, beq_eq_false_iff_ne]
    omega
  · intro hc; subst hc; revert h; decide
  · intro hc; subst hc; revert h; decide
  · intro hc; subst hc; revert h; decide

theorem digitChar_toNat (k : Nat) (hk : k < 10) :
    (digitChar k).toNat = 48 + k := by
  interval_cases k <;> decide

theorem digitChar_digit (k : Nat) (hk : k < 10) :
    isDigitCh (digitChar k) = true := by
  interval_cases k <;> decide

theorem natOfDigits_pad2 (n : Nat) (h : n < 100) :
    natOfDigits (pad2 n) = n := by
  have h1 : n / 10 % 10 < 10 := Nat.mod_lt _ (by omega)
  have h2 : n % 10 < 10 := Nat.mod_lt _ (by omega)
  simp only [natOfDigits, pad2, List.foldl,
    digitChar_toNat _ h1, digitChar_toNat _ h2]
  omega

theorem natOfDigits_pad4 (n : Nat) (h : n < 10000) :
    natOfDigits (pad4 n) = n := by
  have h1 : n / 1000 % 10 < 10 := Nat.mod_lt _ (by omega)
  have h2 : n / 100 % 10 < 10 := Nat.mod_lt _ (by omega)
  have h3 : n / 10 % 10 < 10 := Nat.mod_lt _ (by omega)
  have h4 : n % 10 < 10 := Nat.mod_lt _ (by omega)
  simp only [natOfDigits, pad4, List.foldl,
    digitChar_toNat _ h1, digitChar_toNat _ h2,
    digitChar_toNat _ h3, digitChar_toNat _ h4]
  omega

theorem pad2_all_digits (n : Nat) : (pad2 n).all isDigitCh = true := by
  simp only [pad2, List.all_cons, List.all_nil, Bool.and_true, Bool.and_eq_true]
  exact ⟨digitChar_digit _ (Nat.mod_lt _ (by omega)),
         digitChar_digit _ (Nat.mod_lt _ (by omega))⟩

theorem pad4_all_digits (n : Nat) : (pad4 n).all isDigitCh = true := by
  simp only [pad4, List.all_cons, List.all_nil, Bool.and_true, Bool.and_eq_true]
  exact ⟨digitChar_digit _ (Nat.mod_lt _ (by omega)),
         digitChar_digit _ (Nat.mod_lt _ (by omega)),
         digitChar_digit _ (Nat.mod_lt _ (by omega)),
         digitChar_digit _ (Nat.mod_lt _ (by omega))⟩

theorem mem_pad2_digit (n : Nat) (c : Char) (h : c ∈ pad2 n) :
    isDigitCh c = true := by
  have := pad2_all_digits n
  rw [List.all_eq_true] at this
  exact this c h

theorem mem_pad4_digit (n : Nat) (c : Char) (h : c ∈ pad4 n) :
    isDigitCh c = true := by
  have := pad4_all_digits n
  rw [List.all_eq_true] at this
  exact this c h

/-! ## `splitSep` lemmas -/

theorem splitSepAux_not_mem (sep : Char) (l : List Char) (h : sep ∉ l) :
    splitSepAux sep l = (l, []) := by
  induction l with
  | nil => rfl
  | cons c rest ih =>
    have hc : ¬c = sep := fun hcs => h (hcs ▸ List.mem_cons_self c rest)
    have hrest : sep ∉ rest := fun hr => h (List.mem_cons_of_mem c hr)
    simp only [splitSepAux, ih hrest, if_neg hc]

theorem splitSep_not_mem (sep : Char) (l : List Char) (h : sep ∉ l) :
    splitSep sep l = [l] := by
  simp only [splitSep, splitSepAux_not_mem sep l h]

theorem splitSepAux_append (sep : Char) (a rest : List Char) (h : sep ∉ a) :
    splitSepAux sep (a ++ sep :: rest) =
      (a, (splitSepAux sep rest).1 :: (splitSepAux sep rest).2) := by
  induction a with
  | nil => simp [splitSepAux]
  | cons c a' ih =>
    have hc : ¬c = sep := fun hcs => h (hcs ▸ List.mem_cons_self c a')
    have ha' : sep ∉ a' := fun hr => h (List.mem_cons_of_mem c hr)
    simp only [List.cons_append, splitSepAux, List.append_eq, ih ha', if_neg hc]

theorem splitSep_append (sep : Char) (a rest : List Char) (h : sep ∉ a) :
    splitSep sep (a ++ sep :: rest) = a :: splitSep sep rest := by
  simp only [splitSep, splitSepAux_append sep a rest h]

theorem splitSep_two (sep : Char) (a b : List Char)
    (h1 : sep ∉ a) (h2 : sep ∉ b) :
    splitSep sep (a ++ sep :: b) = [a, b] := by
  rw [splitSep_append sep a b h1, splitSep_not_mem sep b h2]

theorem splitSep_three (sep : Char) (a b c : List Char)
    (h1 : sep ∉ a) (h2 : sep ∉ b) (h3 : sep ∉ c) :
    splitSep sep (a ++ sep :: (b ++ sep :: c)) = [a, b, c] := by
  rw [splitSep_append sep a _ h1, splitSep_two sep b c h2 h3]

/-! ## `normalizeArg` lemmas -/

theorem normalizeArg_fixed (L : List Char)
    (h : ∀ c ∈ L, lowerCh c = c ∧ isPySpace c = false) :
    normalizeArg (String.mk L) = L := by
  unfold normalizeArg
  have hdata : (String.mk L).data = L := rfl
  rw [hdata]
  rw [List.map_congr_left (fun c hc => (h c hc).1), List.map_id']
  rw [List.filter_eq_self]
  intro c hc
  simp [(h c hc).2]

/-! ## Ordinal range of valid dates -/

theorem daysBeforeMonth_le (y m : Nat) (h1 : 1 ≤ m) (h2 : m ≤ 12) :
    daysBeforeMonth y m ≤ 334 + (if isLeap y = true then 1 else 0) := by
  interval_cases m <;> simp [daysBeforeMonth] <;> split <;> omega

theorem toOrdinal_pos (d : Date) (hv : validDate d) : 1 ≤ toOrdinal d := by
  obtain ⟨y, m, dd⟩ := d
  obtain ⟨hy1, hy2, hm1, hm2, hd1, hd2⟩ := hv
  simp only at hy1 hy2 hm1 hm2 hd1 hd2
  simp only [toOrdinal]
  omega

theorem toOrdinal_le_max (d : Date) (hv : validDate d) :
    toOrdinal d ≤ maxOrdinal := by
  obtain ⟨y, m, dd⟩ := d
  obtain ⟨hy1, hy2, hm1, hm2, hd1, hd2⟩ := hv
  simp only at hy1 hy2 hm1 hm2 hd1 hd2
  have hdbm := daysBeforeMonth_le y m hm1 hm2
  have hdim := daysInMonth_bounds y m hm1 hm2
  rw [maxOrdinal_eq]
  simp only [toOrdinal]
  cases hlp : isLeap y with
  | true =>
    rw [hlp, if_pos rfl] at hdbm
    have hy4 : y % 4 = 0 := by
      simp only [isLeap, Bool.and_eq_true, beq_iff_eq] at hlp
      exact hlp.1
    omega
  | false =>
    rw [hlp] at hdbm
    simp only [Bool.false_eq_true, if_false] at hdbm
    omega

/-! ## Field and format lemmas -/

/-- A one-or-two-digit field string with value `v`. -/
def fieldRep (l : List Char) (v : Nat) : Prop :=
  l.all isDigitCh = true ∧ 1 ≤ l.length ∧ l.length ≤ 2 ∧ natOfDigits l = v

theorem monthField_rep (l : List Char) (v : Nat) (h : fieldRep l v) :
    monthField l = if 1 ≤ v ∧ v ≤ 12 then some v else none := by
  obtain ⟨hd, h1, h2, hv⟩ := h
  unfold monthField
  rw [hv]
  by_cases hr : 1 ≤ v ∧ v ≤ 12
  · rw [if_pos ⟨hd, h1, h2, hr.1, hr.2⟩, if_pos hr]
  · rw [if_neg (fun hcon => hr ⟨hcon.2.2.2.1, hcon.2.2.2.2⟩), if_neg hr]

theorem dayField_rep (l : List Char) (v : Nat) (h : fieldRep l v) :
    dayField l = if 1 ≤ v ∧ v ≤ 31 then some v else none := by
  obtain ⟨hd, h1, h2, hv⟩ := h
  unfold dayField
  rw [hv]
  by_cases hr : 1 ≤ v ∧ v ≤ 31
  · rw [if_pos ⟨hd, h1, h2, hr.1, hr.2⟩, if_pos hr]
  · rw [if_neg (fun hcon => hr ⟨hcon.2.2.2.1, hcon.2.2.2.2⟩), if_neg hr]

theorem yearField_short (l : List Char) (h : l.length ≤ 2) :
    yearField l = none := by
  unfold yearField
  rw [if_neg]
  intro hcon
  omega

theorem monthField_pad2 (m : Nat) (h1 : 1 ≤ m) (h2 : m ≤ 12) :
    monthField (pad2 m) = some m := by
  rw [monthField_rep (pad2 m) m
    ⟨pad2_all_digits m, by simp [pad2], by simp [pad2],
     natOfDigits_pad2 m (by omega)⟩]
  rw [if_pos ⟨h1, h2⟩]

theorem dayField_pad2 (d : Nat) (h1 : 1 ≤ d) (h2 : d ≤ 31) :
    dayField (pad2 d) = some d := by
  rw [dayField_rep (pad2 d) d
    ⟨pad2_all_digits d, by simp [pad2], by simp [pad2],
     natOfDigits_pad2 d (by omega)⟩]
  rw [if_pos ⟨h1, h2⟩]

theorem yearField_pad4 (y : Nat) (h : y ≤ 9999) :
    yearField (pad4 y) = some y := by
  unfold yearField
  rw [if_pos ⟨pad4_all_digits y, by simp [pad4]⟩]
  rw [natOfDigits_pad4 y (by omega)]

theorem mkDate_pos (y m d : Nat) (h : validDate ⟨y, m, d⟩) :
    mkDate y m d = some ⟨y, m, d⟩ := by
  unfold mkDate
  rw [if_pos h]

theorem mkDate_neg (y m d : Nat) (h : ¬validDate ⟨y, m, d⟩) :
    mkDate y m d = none := by
  unfold mkDate
  rw [if_neg h]

theorem mkDate_some (y m d : Nat) (e : Date) (h : mkDate y m d = some e) :
    validDate e ∧ e = ⟨y, m, d⟩ := by
  unfold mkDate at h
  split at h
  · next hval =>
    have he : Date.mk y m d = e := Option.some_inj.mp h
    exact ⟨he ▸ hval, he.symm⟩
  · exact absurd h (by simp)

theorem strptime_valid (f : Fmt) (l : List Char) (e : Date)
    (h : strptime f l = some e) : validDate e := by
  unfold strptime at h
  rw [Option.bind_eq_some] at h
  obtain ⟨t, _, h2⟩ := h
  exact (mkDate_some _ _ _ _ h2).1

theorem applyFmt_valid (today : Date) (f : Fmt) (l : List Char) (e : Date)
    (h : applyFmt today f l = some e) : validDate e := by
  unfold applyFmt at h
  rw [Option.bind_eq_some] at h
  obtain ⟨d, hd, h2⟩ := h
  split at h2
  · exact (mkDate_some _ _ _ _ h2).1
  · rw [← Option.some_inj.mp h2]
    exact strptime_valid f l d hd

theorem tryFormats_cons_some (today : Date) (f : Fmt) (fs : List Fmt)
    (l : List Char) (d : Date) (h : applyFmt today f l = some d) :
    tryFormats today (f :: fs) l = some d := by
  show (match applyFmt today f l with
        | some d => some d
        | none => tryFormats today fs l) = some d
  rw [h]

theorem tryFormats_skip (today : Date) (f : Fmt) (fs : List Fmt)
    (l : List Char) (h : applyFmt today f l = none) :
    tryFormats today (f :: fs) l = tryFormats today fs l := by
  show (match applyFmt today f l with
        | some d => some d
        | none => tryFormats today fs l) = tryFormats today fs l
  rw [h]

theorem tryFormats_valid (today : Date) (fs : List Fmt) (l : List Char)
    (e : Date) (h : tryFormats today fs l = some e) : validDate e := by
  induction fs with
  | nil => exact absurd h (by simp [tryFormats])
  | cons f rest ih =>
    cases ha : applyFmt today f l with
    | some d =>
      rw [tryFormats_cons_some today f rest l d ha, Option.some_inj] at h
      exact applyFmt_valid today f l e (h ▸ ha)
    | none =>
      rw [tryFormats_skip today f rest l ha] at h
      exact ih h

theorem tryFormats_eq_findSome (today : Date) (fs : List Fmt) (l : List Char) :
    tryFormats today fs l = fs.findSome? (fun f => applyFmt today f l) := by
  induction fs with
  | nil => rfl
  | cons f rest ih =>
    rw [List.findSome?_cons]
    cases ha : applyFmt today f l with
    | some d =>
      rw [tryFormats_cons_some today f rest l d ha]
    | none =>
      rw [tryFormats_skip today f rest l ha]
      exact ih

theorem tryFormats_none (today : Date) (fs : List Fmt) (l : List Char)
    (h : ∀ f ∈ fs, applyFmt today f l = none) :
    tryFormats today fs l = none := by
  induction fs with
  | nil => rfl
  | cons f rest ih =>
    rw [tryFormats_skip today f rest l (h f (List.mem_cons_self f rest))]
    exact ih (fun g hg => h g (List.mem_cons_of_mem f hg))

/-! ## `matchRel` lemmas -/

theorem matchRel_cons (c : Char) (l : List Char) :
    matchRel (c :: l) =
      if c = 't' then
        (match l with
         | [] => some none
         | sgn :: ds =>
           if (sgn = '+' ∨ sgn = '-') ∧ ds ≠ [] ∧ ds.all isDigitCh = true then
             some (some (if sgn = '-' then -(natOfDigits ds : Int)
                         else (natOfDigits ds : Int)))
           else none)
      else none := rfl

theorem matchRel_digit_head (c : Char) (l : List Char)
    (h : isDigitCh c = true) : matchRel (c :: l) = none := by
  rw [matchRel_cons, if_neg (digit_props c h).2.2.2.2]

theorem matchRel_plus (ds : List Char) (hne : ds ≠ [])
    (hd : ds.all isDigitCh = true) :
    matchRel ('t' :: '+' :: ds) = some (some (natOfDigits ds : Int)) := by
  rw [matchRel_cons, if_pos rfl]
  show (if (('+' = '+' ∨ ('+' : Char) = '-') ∧ ds ≠ [] ∧ ds.all isDigitCh = true) then
          some (some (if ('+' : Char) = '-' then -(natOfDigits ds : Int)
                      else (natOfDigits ds : Int)))
        else none) = some (some (natOfDigits ds : Int))
  rw [if_pos ⟨Or.inl rfl, hne, hd⟩, if_neg (by decide)]

theorem matchRel_minus (ds : List Char) (hne : ds ≠ [])
    (hd : ds.all isDigitCh = true) :
    matchRel ('t' :: '-' :: ds) = some (some (-(natOfDigits ds : Int))) := by
  rw [matchRel_cons, if_pos rfl]
  show (if ((('-' : Char) = '+' ∨ ('-' : Char) = '-') ∧ ds ≠ [] ∧ ds.all isDigitCh = true) then
          some (some (if ('-' : Char) = '-' then -(natOfDigits ds : Int)
                      else (natOfDigits ds : Int)))
        else none) = some (some (-(natOfDigits ds : Int)))
  rw [if_pos ⟨Or.inr rfl, hne, hd⟩, if_pos rfl]

/-! ## Equation helpers for `transform_date` -/

theorem transform_date_some_arg (s : String) (mode : Bool) (today : Date)
    (h : s ≠ "") :
    transform_date (some s) mode today =
      parse_nonempty today mode (normalizeArg s) := by
  show (if s = "" then .ok (serialize today)
        else parse_nonempty today mode (normalizeArg s)) = _
  rw [if_neg h]

theorem parse_nonempty_noRel (today : Date) (mode : Bool) (l : List Char)
    (h : matchRel l = none) :
    parse_nonempty today mode l = parse_absolute today mode l := by
  show (match matchRel l with
        | some (some off) =>
          match addDays today off with
          | some d => Except.ok (serialize d)
          | none => Except.error PyError.overflowError
        | some none => Except.ok (serialize today)
        | none => parse_absolute today mode l) = _
  rw [h]

theorem parse_nonempty_rel (today : Date) (mode : Bool) (l : List Char)
    (off : Int) (h : matchRel l = some (some off)) :
    parse_nonempty today mode l =
      match addDays today off with
      | some d => Except.ok (serialize d)
      | none => Except.error PyError.overflowError := by
  show (match matchRel l with
        | some (some off) =>
          match addDays today off with
          | some d => Except.ok (serialize d)
          | none => Except.error PyError.overflowError
        | some none => Except.ok (serialize today)
        | none => parse_absolute today mode l) = _
  rw [h]

theorem parse_absolute_some (today : Date) (mode : Bool) (l : List Char)
    (d : Date) (h : tryFormats today (formats mode) l = some d) :
    parse_absolute today mode l = .ok (serialize d) := by
  show (match tryFormats today (formats mode) l with
        | some d => Except.ok (serialize d)
        | none => Except.error (PyError.valueError ("Could not parse date: " ++ String.mk l))) = _
  rw [h]

theorem parse_absolute_none (today : Date) (mode : Bool) (l : List Char)
    (h : tryFormats today (formats mode) l = none) :
    parse_absolute today mode l =
      .error (.valueError ("Could not parse date: " ++ String.mk l)) := by
  show (match tryFormats today (formats mode) l with
        | some d => Except.ok (serialize d)
        | none => Except.error (PyError.valueError ("Could not parse date: " ++ String.mk l))) = _
  rw [h]

/-! ## `serialize` lemmas -/

theorem serialize_eq (d : Date) :
    serialize d = String.mk (pad4 d.year ++ '-' :: (pad2 d.month ++ '-' :: pad2 d.day)) := rfl

theorem mem_serialize_chars (d : Date) (c : Char)
    (h : c ∈ pad4 d.year ++ '-' :: (pad2 d.month ++ '-' :: pad2 d.day)) :
    isDigitCh c = true ∨ c = '-' := by
  rcases List.mem_append.mp h with h4 | hrest
  · exact Or.inl (mem_pad4_digit _ c h4)
  · rcases List.mem_cons.mp hrest with hdash | hrest2
    · exact Or.inr hdash
    · rcases List.mem_append.mp hrest2 with h2 | hrest3
      · exact Or.inl (mem_pad2_digit _ c h2)
      · rcases List.mem_cons.mp hrest3 with hdash | h2
        · exact Or.inr hdash
        · exact Or.inl (mem_pad2_digit _ c h2)

theorem normalizeArg_serialize (d : Date) :
    normalizeArg (serialize d) =
      pad4 d.year ++ '-' :: (pad2 d.month ++ '-' :: pad2 d.day) := by
  rw [serialize_eq]
  apply normalizeArg_fixed
  intro c hc
  rcases mem_serialize_chars d c hc with hdig | hdash
  · exact ⟨(digit_props c hdig).1, (digit_props c hdig).2.1⟩
  · subst hdash; exact ⟨by decide, by decide⟩

theorem serialize_ne_empty (d : Date) : serialize d ≠ "" := by
  intro hcon
  have hdata := congrArg String.data hcon
  simp [serialize, pad4] at hdata

theorem not_mem_pad2 (n : Nat) (c : Char) (h : isDigitCh c = false) :
    c ∉ pad2 n := by
  intro hmem
  rw [mem_pad2_digit n c hmem] at h
  exact Bool.noConfusion h

theorem not_mem_pad4 (n : Nat) (c : Char) (h : isDigitCh c = false) :
    c ∉ pad4 n := by
  intro hmem
  rw [mem_pad4_digit n c hmem] at h
  exact Bool.noConfusion h

theorem slash_not_mem_serialize (d : Date) :
    '/' ∉ pad4 d.year ++ '-' :: (pad2 d.month ++ '-' :: pad2 d.day) := by
  intro hmem
  rcases mem_serialize_chars d '/' hmem with hdig | hdash
  · exact Bool.noConfusion ((by decide : isDigitCh '/' = false) ▸ hdig)
  · exact absurd hdash (by decide)

/-! ## Round-trip of serialized dates through the month-first formats -/

theorem applyFmt_md_slash_serialize (today d : Date) :
    applyFmt today .md_slash
      (pad4 d.year ++ '-' :: (pad2 d.month ++ '-' :: pad2 d.day)) = none := by
  simp [applyFmt, strptime, rawFields,
    splitSep_not_mem '/' _ (slash_not_mem_serialize d)]

theorem applyFmt_md_dash_serialize (today d : Date) :
    applyFmt today .md_dash
      (pad4 d.year ++ '-' :: (pad2 d.month ++ '-' :: pad2 d.day)) = none := by
  simp [applyFmt, strptime, rawFields,
    splitSep_three '-' _ _ _ (not_mem_pad4 _ _ (by decide))
      (not_mem_pad2 _ _ (by decide)) (not_mem_pad2 _ _ (by decide))]

theorem applyFmt_ymd_serialize (today d : Date) (hv : validDate d) :
    applyFmt today .ymd_dash
      (pad4 d.year ++ '-' :: (pad2 d.month ++ '-' :: pad2 d.day)) = some d := by
  obtain ⟨y, m, dd⟩ := d
  obtain ⟨hy1, hy2, hm1, hm2, hd1, hd2⟩ := hv
  simp only at hy1 hy2 hm1 hm2 hd1 hd2
  have hb := daysInMonth_bounds y m hm1 hm2
  simp [applyFmt, strptime, rawFields,
    splitSep_three '-' _ _ _ (not_mem_pad4 _ _ (by decide))
      (not_mem_pad2 _ _ (by decide)) (not_mem_pad2 _ _ (by decide)),
    yearField_pad4 y hy2, monthField_pad2 m hm1 hm2,
    dayField_pad2 dd hd1 (by omega),
    mkDate_pos y m dd ⟨hy1, hy2, hm1, hm2, hd1, hd2⟩]

theorem roundtrip_monthFirst (d : Date) (hv : validDate d) (today : Date) :
    transform_date (some (serialize d)) false today = .ok (serialize d) := by
  rw [transform_date_some_arg _ _ _ (serialize_ne_empty d)]
  rw [normalizeArg_serialize]
  have hrel : matchRel (pad4 d.year ++ '-' :: (pad2 d.month ++ '-' :: pad2 d.day)) = none := by
    exact matchRel_digit_head _ _ (digitChar_digit _ (Nat.mod_lt _ (by omega)))
  rw [parse_nonempty_noRel _ _ _ hrel]
  have htf : tryFormats today (formats false)
      (pad4 d.year ++ '-' :: (pad2 d.month ++ '-' :: pad2 d.day)) = some d := by
    show tryFormats today [.md_slash, .md_dash, .ymd_dash, .mdy_slash, .mdy_dash] _ = some d
    rw [tryFormats_skip _ _ _ _ (applyFmt_md_slash_serialize today d),
        tryFormats_skip _ _ _ _ (applyFmt_md_dash_serialize today d),
        tryFormats_cons_some _ _ _ _ _ (applyFmt_ymd_serialize today d hv)]
  rw [parse_absolute_some _ _ _ _ htf, serialize_eq]

/-- Every `.ok` result of `transform_date` is the serialization of a
valid calendar date. -/
theorem transform_date_ok_form (arg : Option String) (mode : Bool)
    (today : Date) (s : String) (hv : validDate today)
    (h : transform_date arg mode today = .ok s) :
    ∃ d, validDate d ∧ s = serialize d := by
  match arg with
  | none =>
    exact ⟨today, hv, (Except.ok.inj h).symm⟩
  | some str =>
    by_cases hemp : str = ""
    · subst hemp
      exact ⟨today, hv, (Except.ok.inj h).symm⟩
    · rw [transform_date_some_arg _ _ _ hemp] at h
      cases hm : matchRel (normalizeArg str) with
      | none =>
        rw [parse_nonempty_noRel _ _ _ hm] at h
        cases htf : tryFormats today (formats mode) (normalizeArg str) with
        | some d =>
          rw [parse_absolute_some _ _ _ _ htf] at h
          exact ⟨d, tryFormats_valid _ _ _ _ htf, (Except.ok.inj h).symm⟩
        | none =>
          rw [parse_absolute_none _ _ _ htf] at h
          exact absurd h (by simp)
      | some o =>
        cases o with
        | none =>
          have : parse_nonempty today mode (normalizeArg str) = .ok (serialize today) := by
            show (match matchRel (normalizeArg str) with
                  | some (some off) =>
                    match addDays today off with
                    | some d => Except.ok (serialize d)
                    | none => Except.error PyError.overflowError
                  | some none => Except.ok (serialize today)
                  | none => parse_absolute today mode (normalizeArg str)) = _
            rw [hm]
          rw [this] at h
          exact ⟨today, hv, (Except.ok.inj h).symm⟩
        | some off =>
          rw [parse_nonempty_rel _ _ _ off hm] at h
          cases ha : addDays today off with
          | some e =>
            rw [ha] at h
            simp only at h
            exact ⟨e, (addDays_some_valid today e off hv ha).1,
                   (Except.ok.inj h).symm⟩
          | none =>
            rw [ha] at h
            simp only at h
            exact absurd h (by simp)

/-! ## `applyFmt` unfolding helpers -/

theorem applyFmt_no_replace (today : Date) (f : Fmt) (l : List Char)
    (hf : ¬(f = .dm_slash ∨ f = .dm_dash)) :
    applyFmt today f l = strptime f l := by
  unfold applyFmt
  cases strptime f l with
  | none => rfl
  | some d => simp [hf]

theorem applyFmt_replace (today : Date) (f : Fmt) (l : List Char)
    (hf : f = .dm_slash ∨ f = .dm_dash) :
    applyFmt today f l =
      (strptime f l).bind (fun d => mkDate today.year d.month d.day) := by
  unfold applyFmt
  cases strptime f l with
  | none => rfl
  | some d => simp [hf]

theorem applyFmt_nil (today : Date) (f : Fmt) :
    applyFmt today f [] = none := by
  cases f <;>
    simp [applyFmt, strptime, rawFields, splitSep, splitSepAux]

/-! ## Injectivity of the serialized form -/

theorem digitChar_inj (a b : Nat) (ha : a < 10) (hb : b < 10)
    (h : digitChar a = digitChar b) : a = b := by
  have := congrArg Char.toNat h
  rw [digitChar_toNat a ha, digitChar_toNat b hb] at this
  omega

theorem pad2_inj (m1 m2 : Nat) (h1 : m1 ≤ 99) (h2 : m2 ≤ 99)
    (h : pad2 m1 = pad2 m2) : m1 = m2 := by
  have := congrArg natOfDigits h
  rwa [natOfDigits_pad2 _ (by omega), natOfDigits_pad2 _ (by omega)] at this

theorem serialize_month_inj (d1 d2 : Date) (h1 : d1.month ≤ 99)
    (h2 : d2.month ≤ 99) (h : serialize d1 = serialize d2) :
    d1.month = d2.month := by
  have hdata := congrArg String.data h
  simp only [serialize] at hdata
  have hlen4 : (pad4 d1.year).length = (pad4 d2.year).length := by
    simp [pad4]
  have htail := (List.append_inj hdata hlen4).2
  rw [List.cons.injEq] at htail
  have hlen2 : (pad2 d1.month).length = (pad2 d2.month).length := by
    simp [pad2]
  have hm := (List.append_inj htail.2 hlen2).1
  exact pad2_inj _ _ h1 h2 hm

/-! ## Month lengths never shrink from the strptime default year 1900 -/

theorem daysInMonth_1900_le (y m : Nat) (h1 : 1 ≤ m) (h2 : m ≤ 12) :
    daysInMonth 1900 m ≤ daysInMonth y m := by
  interval_cases m <;> simp [daysInMonth, isLeap] <;> split <;> omega

/-! ## Strings of the relative grammar -/

theorem mk_cons_ne_empty (c : Char) (cs : List Char) :
    String.mk (c :: cs) ≠ "" := by
  intro h
  have hdata := congrArg String.data h
  simp at hdata

theorem normalizeArg_tsign (sgn : Char) (ds : List Char)
    (hsgn : lowerCh sgn = sgn ∧ isPySpace sgn = false)
    (hd : ds.all isDigitCh = true) :
    normalizeArg (String.mk ('t' :: sgn :: ds)) = 't' :: sgn :: ds := by
  apply normalizeArg_fixed
  intro c hc
  rcases List.mem_cons.mp hc with rfl | hc2
  · exact ⟨by decide, by decide⟩
  rcases List.mem_cons.mp hc2 with rfl | hc3
  · exact hsgn
  · have := (List.all_eq_true.mp hd) c hc3
    exact ⟨(digit_props c this).1, (digit_props c this).2.1⟩

/-! ## Two-field inputs -/

theorem twoField_chars (sep : Char) (sa sb : List Char)
    (hsep : sep = '/' ∨ sep = '-')
    (hda : sa.all isDigitCh = true) (hdb : sb.all isDigitCh = true) :
    normalizeArg (String.mk (sa ++ sep :: sb)) = sa ++ sep :: sb := by
  apply normalizeArg_fixed
  intro c hc
  rcases List.mem_append.mp hc with hca | hcr
  · have := (List.all_eq_true.mp hda) c hca
    exact ⟨(digit_props c this).1, (digit_props c this).2.1⟩
  rcases List.mem_cons.mp hcr with rfl | hcb
  · rcases hsep with rfl | rfl <;> exact ⟨by decide, by decide⟩
  · have := (List.all_eq_true.mp hdb) c hcb
    exact ⟨(digit_props c this).1, (digit_props c this).2.1⟩

theorem not_mem_digits (c : Char) (l : List Char)
    (hd : l.all isDigitCh = true) (hc : isDigitCh c = false) : c ∉ l := by
  intro hmem
  rw [(List.all_eq_true.mp hd) c hmem] at hc
  exact Bool.noConfusion hc

theorem twoField_matchRel (sep : Char) (sa sb : List Char) (a : Nat)
    (ha : fieldRep sa a) :
    matchRel (sa ++ sep :: sb) = none := by
  obtain ⟨hda, hlen1, -, -⟩ := ha
  have hne : sa ≠ [] := by
    intro hnil
    rw [hnil] at hlen1
    simp at hlen1
  obtain ⟨c, sa', rfl⟩ := List.exists_cons_of_ne_nil hne
  exact matchRel_digit_head c _
    ((List.all_eq_true.mp hda) c (List.mem_cons_self c sa'))

theorem mk_ne_empty (l : List Char) (h : l ≠ []) : String.mk l ≠ "" := by
  obtain ⟨c, l', rfl⟩ := List.exists_cons_of_ne_nil h
  exact mk_cons_ne_empty c l'

/-- Evaluation of `transform_date` in month-first mode on a two-field
input: the first matching candidate is the two-field month-day format
with the input's separator; every other candidate fails, so the result
is decided by `datetime(1900, month, day)`. -/
theorem twoField_false (today : Date) (sep : Char) (sa sb : List Char)
    (a b : Nat) (hsep : sep = '/' ∨ sep = '-')
    (ha : fieldRep sa a) (hb : fieldRep sb b) :
    transform_date (some (String.mk (sa ++ sep :: sb))) false today =
      match (monthField sa).bind (fun m => (dayField sb).bind
              (fun dd => mkDate 1900 m dd)) with
      | some e => Except.ok (serialize e)
      | none => Except.error (PyError.valueError
          ("Could not parse date: " ++ String.mk (sa ++ sep :: sb))) := by
  obtain ⟨hda, hla1, hla2, hva⟩ := ha
  obtain ⟨hdb, hlb1, hlb2, hvb⟩ := hb
  have hsa_ne : sa ≠ [] := by
    intro hnil; rw [hnil] at hla1; simp at hla1
  have hLne : String.mk (sa ++ sep :: sb) ≠ "" :=
    mk_ne_empty _ (by simp [hsa_ne])
  rw [transform_date_some_arg _ _ _ hLne,
      twoField_chars sep sa sb hsep hda hdb,
      parse_nonempty_noRel _ _ _
        (twoField_matchRel sep sa sb a ⟨hda, hla1, hla2, hva⟩)]
  rcases hsep with rfl | rfl
  · -- separator '/'
    have hss : splitSep '/' (sa ++ '/' :: sb) = [sa, sb] :=
      splitSep_two _ _ _ (not_mem_digits _ _ hda (by decide))
        (not_mem_digits _ _ hdb (by decide))
    have hsd : splitSep '-' (sa ++ '/' :: sb) = [sa ++ '/' :: sb] := by
      apply splitSep_not_mem
      intro hmem
      rcases List.mem_append.mp hmem with hm1 | hm2
      · exact not_mem_digits _ _ hda (by decide) hm1
      rcases List.mem_cons.mp hm2 with heq | hm3
      · exact absurd heq (by decide)
      · exact not_mem_digits _ _ hdb (by decide) hm3
    have F1 : applyFmt today .md_slash (sa ++ '/' :: sb) =
        (monthField sa).bind (fun m => (dayField sb).bind
          (fun dd => mkDate 1900 m dd)) := by
      rw [applyFmt_no_replace _ _ _ (by decide)]
      simp only [strptime, rawFields, hss]
      cases hm : monthField sa <;> cases hd : dayField sb <;> simp
    have F2 : applyFmt today .md_dash (sa ++ '/' :: sb) = none := by
      simp [applyFmt, strptime, rawFields, hsd]
    have F3 : applyFmt today .ymd_dash (sa ++ '/' :: sb) = none := by
      simp [applyFmt, strptime, rawFields, hsd]
    have F4 : applyFmt today .mdy_slash (sa ++ '/' :: sb) = none := by
      simp [applyFmt, strptime, rawFields, hss]
    have F5 : applyFmt today .mdy_dash (sa ++ '/' :: sb) = none := by
      simp [applyFmt, strptime, rawFields, hsd]
    cases hS : (monthField sa).bind (fun m => (dayField sb).bind
        (fun dd => mkDate 1900 m dd)) with
    | some e =>
      apply parse_absolute_some
      show tryFormats today
        [.md_slash, .md_dash, .ymd_dash, .mdy_slash, .mdy_dash] _ = some e
      rw [tryFormats_cons_some _ _ _ _ _ (F1.trans hS)]
    | none =>
      apply parse_absolute_none
      show tryFormats today
        [.md_slash, .md_dash, .ymd_dash, .mdy_slash, .mdy_dash] _ = none
      rw [tryFormats_skip _ _ _ _ (F1.trans hS), tryFormats_skip _ _ _ _ F2,
          tryFormats_skip _ _ _ _ F3, tryFormats_skip _ _ _ _ F4,
          tryFormats_skip _ _ _ _ F5]
      rfl
  · -- separator '-'
    have hss : splitSep '/' (sa ++ '-' :: sb) = [sa ++ '-' :: sb] := by
      apply splitSep_not_mem
      intro hmem
      rcases List.mem_append.mp hmem with hm1 | hm2
      · exact not_mem_digits _ _ hda (by decide) hm1
      rcases List.mem_cons.mp hm2 with heq | hm3
      · exact absurd heq (by decide)
      · exact not_mem_digits _ _ hdb (by decide) hm3
    have hsd : splitSep '-' (sa ++ '-' :: sb) = [sa, sb] :=
      splitSep_two _ _ _ (not_mem_digits _ _ hda (by decide))
        (not_mem_digits _ _ hdb (by decide))
    have F1 : applyFmt today .md_slash (sa ++ '-' :: sb) = none := by
      simp [applyFmt, strptime, rawFields, hss]
    have F2 : applyFmt today .md_dash (sa ++ '-' :: sb) =
        (monthField sa).bind (fun m => (dayField sb).bind
          (fun dd => mkDate 1900 m dd)) := by
      rw [applyFmt_no_replace _ _ _ (by decide)]
      simp only [strptime, rawFields, hsd]
      cases hm : monthField sa <;> cases hd : dayField sb <;> simp
    have F3 : applyFmt today .ymd_dash (sa ++ '-' :: sb) = none := by
      simp [applyFmt, strptime, rawFields, hsd]
    have F4 : applyFmt today .mdy_slash (sa ++ '-' :: sb) = none := by
      simp [applyFmt, strptime, rawFields, hss]
    have F5 : applyFmt today .mdy_dash (sa ++ '-' :: sb) = none := by
      simp [applyFmt, strptime, rawFields, hsd]
    cases hS : (monthField sa).bind (fun m => (dayField sb).bind
        (fun dd => mkDate 1900 m dd)) with
    | some e =>
      apply parse_absolute_some
      show tryFormats today
        [.md_slash, .md_dash, .ymd_dash, .mdy_slash, .mdy_dash] _ = some e
      rw [tryFormats_skip _ _ _ _ F1,
          tryFormats_cons_some _ _ _ _ _ (F2.trans hS)]
    | none =>
      apply parse_absolute_none
      show tryFormats today
        [.md_slash, .md_dash, .ymd_dash, .mdy_slash, .mdy_dash] _ = none
      rw [tryFormats_skip _ _ _ _ F1, tryFormats_skip _ _ _ _ (F2.trans hS),
          tryFormats_skip _ _ _ _ F3, tryFormats_skip _ _ _ _ F4,
          tryFormats_skip _ _ _ _ F5]
      rfl

/-- Evaluation of `transform_date` in day-first mode on a two-field
input: the two-field day-month candidate decides the result, with the
`dt.replace(year=today.year)` step applied after the year-1900
validation. -/
theorem twoField_true (today : Date) (sep : Char) (sa sb : List Char)
    (a b : Nat) (hsep : sep = '/' ∨ sep = '-')
    (ha : fieldRep sa a) (hb : fieldRep sb b) :
    transform_date (some (String.mk (sa ++ sep :: sb))) true today =
      match (dayField sa).bind (fun dd => (monthField sb).bind
              (fun m => (mkDate 1900 m dd).bind
                (fun e => mkDate today.year e.month e.day))) with
      | some e => Except.ok (serialize e)
      | none => Except.error (PyError.valueError
          ("Could not parse date: " ++ String.mk (sa ++ sep :: sb))) := by
  obtain ⟨hda, hla1, hla2, hva⟩ := ha
  obtain ⟨hdb, hlb1, hlb2, hvb⟩ := hb
  have hsa_ne : sa ≠ [] := by
    intro hnil; rw [hnil] at hla1; simp at hla1
  have hLne : String.mk (sa ++ sep :: sb) ≠ "" :=
    mk_ne_empty _ (by simp [hsa_ne])
  rw [transform_date_some_arg _ _ _ hLne,
      twoField_chars sep sa sb hsep hda hdb,
      parse_nonempty_noRel _ _ _
        (twoField_matchRel sep sa sb a ⟨hda, hla1, hla2, hva⟩)]
  rcases hsep with rfl | rfl
  · -- separator '/'
    have hss : splitSep '/' (sa ++ '/' :: sb) = [sa, sb] :=
      splitSep_two _ _ _ (not_mem_digits _ _ hda (by decide))
        (not_mem_digits _ _ hdb (by decide))
    have hsd : splitSep '-' (sa ++ '/' :: sb) = [sa ++ '/' :: sb] := by
      apply splitSep_not_mem
      intro hmem
      rcases List.mem_append.mp hmem with hm1 | hm2
      · exact not_mem_digits _ _ hda (by decide) hm1
      rcases List.mem_cons.mp hm2 with heq | hm3
      · exact absurd heq (by decide)
      · exact not_mem_digits _ _ hdb (by decide) hm3
    have F1 : applyFmt today .dm_slash (sa ++ '/' :: sb) =
        (dayField sa).bind (fun dd => (monthField sb).bind
          (fun m => (mkDate 1900 m dd).bind
            (fun e => mkDate today.year e.month e.day))) := by
      rw [applyFmt_replace _ _ _ (Or.inl rfl)]
      simp only [strptime, rawFields, hss]
      cases hd : dayField sa <;> cases hm : monthField sb <;> simp
    have F2 : applyFmt today .dm_dash (sa ++ '/' :: sb) = none := by
      simp [applyFmt, strptime, rawFields, hsd]
    have F3 : applyFmt today .ydm_dash (sa ++ '/' :: sb) = none := by
      simp [applyFmt, strptime, rawFields, hsd]
    have F4 : applyFmt today .dmy_slash (sa ++ '/' :: sb) = none := by
      simp [applyFmt, strptime, rawFields, hss]
    have F5 : applyFmt today .dmy_dash (sa ++ '/' :: sb) = none := by
      simp [applyFmt, strptime, rawFields, hsd]
    cases hS : (dayField sa).bind (fun dd => (monthField sb).bind
        (fun m => (mkDate 1900 m dd).bind
          (fun e => mkDate today.year e.month e.day))) with
    | some e =>
      apply parse_absolute_some
      show tryFormats today
        [.dm_slash, .dm_dash, .ydm_dash, .dmy_slash, .dmy_dash] _ = some e
      rw [tryFormats_cons_some _ _ _ _ _ (F1.trans hS)]
    | none =>
      apply parse_absolute_none
      show tryFormats today
        [.dm_slash, .dm_dash, .ydm_dash, .dmy_slash, .dmy_dash] _ = none
      rw [tryFormats_skip _ _ _ _ (F1.trans hS), tryFormats_skip _ _ _ _ F2,
          tryFormats_skip _ _ _ _ F3, tryFormats_skip _ _ _ _ F4,
          tryFormats_skip _ _ _ _ F5]
      rfl
  · -- separator '-'
    have hss : splitSep '/' (sa ++ '-' :: sb) = [sa ++ '-' :: sb] := by
      apply splitSep_not_mem
      intro hmem
      rcases List.mem_append.mp hmem with hm1 | hm2
      · exact not_mem_digits _ _ hda (by decide) hm1
      rcases List.mem_cons.mp hm2 with heq | hm3
      · exact absurd heq (by decide)
      · exact not_mem_digits _ _ hdb (by decide) hm3
    have hsd : splitSep '-' (sa ++ '-' :: sb) = [sa, sb] :=
      splitSep_two _ _ _ (not_mem_digits _ _ hda (by decide))
        (not_mem_digits _ _ hdb (by decide))
    have F1 : applyFmt today .dm_slash (sa ++ '-' :: sb) = none := by
      simp [applyFmt, strptime, rawFields, hss]
    have F2 : applyFmt today .dm_dash (sa ++ '-' :: sb) =
        (dayField sa).bind (fun dd => (monthField sb).bind
          (fun m => (mkDate 1900 m dd).bind
            (fun e => mkDate today.year e.month e.day))) := by
      rw [applyFmt_replace _ _ _ (Or.inr rfl)]
      simp only [strptime, rawFields, hsd]
      cases hd : dayField sa <;> cases hm : monthField sb <;> simp
    have F3 : applyFmt today .ydm_dash (sa ++ '-' :: sb) = none := by
      simp [applyFmt, strptime, rawFields, hsd]
    have F4 : applyFmt today .dmy_slash (sa ++ '-' :: sb) = none := by
      simp [applyFmt, strptime, rawFields, hss]
    have F5 : applyFmt today .dmy_dash (sa ++ '-' :: sb) = none := by
      simp [applyFmt, strptime, rawFields, hsd]
    cases hS : (dayField sa).bind (fun dd => (monthField sb).bind
        (fun m => (mkDate 1900 m dd).bind
          (fun e => mkDate today.year e.month e.day))) with
    | some e =>
      apply parse_absolute_some
      show tryFormats today
        [.dm_slash, .dm_dash, .ydm_dash, .dmy_slash, .dmy_dash] _ = some e
      rw [tryFormats_skip _ _ _ _ F1,
          tryFormats_cons_some _ _ _ _ _ (F2.trans hS)]
    | none =>
      apply parse_absolute_none
      show tryFormats today
        [.dm_slash, .dm_dash, .ydm_dash, .dmy_slash, .dmy_dash] _ = none
      rw [tryFormats_skip _ _ _ _ F1, tryFormats_skip _ _ _ _ (F2.trans hS),
          tryFormats_skip _ _ _ _ F3, tryFormats_skip _ _ _ _ F4,
          tryFormats_skip _ _ _ _ F5]
      rfl

/-! ## Computed forms of `addDays` for in-range offsets -/

theorem addDays_plus (today : Date) (n : Nat) (hv : validDate today)
    (hle : toOrdinal today + n ≤ maxOrdinal) :
    addDays today (n : Int) = some (nextDay^[n] today) := by
  have hp := toOrdinal_pos today hv
  unfold addDays
  rw [if_pos ⟨by omega, by omega⟩]

theorem addDays_minus (today : Date) (n : Nat) (hv : validDate today)
    (hlt : n < toOrdinal today) :
    addDays today (-(n : Int)) = some (prevDay^[n] today) := by
  have hmax := toOrdinal_le_max today hv
  cases n with
  | zero =>
    unfold addDays
    rw [if_pos ⟨by omega, by omega⟩]
    show some (nextDay^[0] today) = some (prevDay^[0] today)
    rfl
  | succ k =>
    unfold addDays
    rw [if_pos ⟨by omega, by omega⟩]
    rfl

/-! ## Whitespace-only inputs -/

theorem lowerCh_space (c : Char) (h : isPySpace c = true) : lowerCh c = c := by
  simp only [isPySpace, Bool.or_eq_true, beq_iff_eq] at h
  unfold lowerCh
  rw [if_neg]
  omega

theorem normalizeArg_allspace (s : String) (h : s.data.all isPySpace = true) :
    normalizeArg s = [] := by
  unfold normalizeArg
  rw [List.map_congr_left
      (fun c hc => lowerCh_space c ((List.all_eq_true.mp h) c hc)),
    List.map_id']
  rw [List.filter_eq_nil_iff]
  intro c hc
  simp [(List.all_eq_true.mp h) c hc]

theorem parse_absolute_nil (today : Date) (mode : Bool) :
    parse_absolute today mode [] =
      .error (.valueError "Could not parse date: ") := by
  have ht : tryFormats today (formats mode) [] = none :=
    tryFormats_none today _ [] (fun f _ => applyFmt_nil today f)
  have hmsg : ("Could not parse date: " ++ String.mk [] : String) =
      "Could not parse date: " := by decide
  rw [parse_absolute_none today mode [] ht, hmsg]

instance (l : List Char) (v : Nat) : Decidable (fieldRep l v) := by
  unfold fieldRep; infer_instance

/-! ## Spec-side ordered format lists (§4.1 step 4 of the specification) -/

/-- Month-first candidates in the spec's order: month/day, month-day,
year-month-day, month/day/year, month-day-year. -/
def specFormatsMonthFirst : List Fmt :=
  [.md_slash, .md_dash, .ymd_dash, .mdy_slash, .mdy_dash]

/-- Day-first candidates in the spec's order: day/month, day-month,
year-day-month, day/month/year, day-month-year. -/
def specFormatsDayFirst : List Fmt :=
  [.dm_slash, .dm_dash, .ydm_dash, .dmy_slash, .dmy_dash]

/-- The mode's candidate list as the specification words it. -/
def specFormats (dayFirst : Bool) : List Fmt :=
  if dayFirst then specFormatsDayFirst else specFormatsMonthFirst

/-! ## Claim theorems -/

/-- **C1** (code evaluated at the failing input): the claim says a
two-field input parsed by the mode's first two formats takes the current
year; with `today = 2026-10-12`, `transform_date("3/4", False)` returns
`"1900-03-04"` (strptime's default year, since the year-replacement test
on line 261 only covers `"%d/%m"` and `"%d-%m"`), not `"2026-03-04"`.
The day-first half of the claim does hold: `transform_date("3/4", True)`
returns `"2026-04-03"`. -/
theorem c1_code_eval :
    transform_date (some "3/4") false ⟨2026, 10, 12⟩ = .ok "1900-03-04" ∧
    transform_date (some "3/4") false ⟨2026, 10, 12⟩ ≠ .ok "2026-03-04" ∧
    transform_date (some "3/4") true ⟨2026, 10, 12⟩ = .ok "2026-04-03" := by
  refine ⟨?_, ?_, ?_⟩ <;> decide

/-- **C2** (counterexample to "for every integer n"): at
`n = 10000000` the date arithmetic leaves the supported calendar range,
so `transform_date` propagates an uncaught `OverflowError` instead of
returning a date string. -/
theorem c2_cex :
    transform_date (some "t+10000000") false ⟨2026, 10, 12⟩ =
      .error .overflowError := by
  decide

/-- **C2** (amended): for every digit string `ds` whose value keeps the
result inside `date.min .. date.max`, `transform_date("t+{ds}")` returns
today's date advanced by `natOfDigits ds` days and
`transform_date("t-{ds}")` returns it moved back, serialized as
`YYYY-MM-DD`; the result is a valid calendar date whose ordinal differs
from today's by exactly the offset (correct month/year rollover), in
either mode. -/
theorem c2_amended :
    ∀ (today : Date) (mode : Bool) (ds : List Char), validDate today →
      ds ≠ [] → ds.all isDigitCh = true →
      (toOrdinal today + natOfDigits ds ≤ maxOrdinal →
        transform_date (some (String.mk ('t' :: '+' :: ds))) mode today =
          .ok (serialize (nextDay^[natOfDigits ds] today)) ∧
        validDate (nextDay^[natOfDigits ds] today) ∧
        toOrdinal (nextDay^[natOfDigits ds] today) =
          toOrdinal today + natOfDigits ds) ∧
      (natOfDigits ds < toOrdinal today →
        transform_date (some (String.mk ('t' :: '-' :: ds))) mode today =
          .ok (serialize (prevDay^[natOfDigits ds] today)) ∧
        validDate (prevDay^[natOfDigits ds] today) ∧
        toOrdinal (prevDay^[natOfDigits ds] today) + natOfDigits ds =
          toOrdinal today) := by
  intro today mode ds hv hne hd
  constructor
  · intro hle
    have hit := nextDay_iter (natOfDigits ds) today hv hle
    refine ⟨?_, hit.1, hit.2⟩
    rw [transform_date_some_arg _ _ _ (mk_cons_ne_empty _ _),
        normalizeArg_tsign '+' ds (by decide) hd,
        parse_nonempty_rel _ _ _ _ (matchRel_plus ds hne hd),
        addDays_plus today _ hv hle]
  · intro hlt
    have hit := prevDay_iter (natOfDigits ds) today hv hlt
    refine ⟨?_, hit.1, hit.2⟩
    rw [transform_date_some_arg _ _ _ (mk_cons_ne_empty _ _),
        normalizeArg_tsign '-' ds (by decide) hd,
        parse_nonempty_rel _ _ _ _ (matchRel_minus ds hne hd),
        addDays_minus today _ hv hlt]

/-- **C2** witness: `t+5` from 2026-12-30 lands on 2027-01-04 (the
spec's rollover example), and `t-3` from 2026-01-01 lands on
2025-12-29. -/
theorem c2_witness :
    transform_date (some "t+5") false ⟨2026, 12, 30⟩ = .ok "2027-01-04" ∧
    (transform_date (some "t+5") false ⟨2026, 12, 30⟩ =
        .ok (serialize (nextDay^[natOfDigits ['5']] ⟨2026, 12, 30⟩)) ∧
      validDate (nextDay^[natOfDigits ['5']] ⟨2026, 12, 30⟩) ∧
      toOrdinal (nextDay^[natOfDigits ['5']] ⟨2026, 12, 30⟩) =
        toOrdinal ⟨2026, 12, 30⟩ + natOfDigits ['5']) ∧
    (transform_date (some "t-3") false ⟨2026, 1, 1⟩ =
        .ok (serialize (prevDay^[natOfDigits ['3']] ⟨2026, 1, 1⟩)) ∧
      validDate (prevDay^[natOfDigits ['3']] ⟨2026, 1, 1⟩) ∧
      toOrdinal (prevDay^[natOfDigits ['3']] ⟨2026, 1, 1⟩) + natOfDigits ['3'] =
        toOrdinal ⟨2026, 1, 1⟩) :=
  ⟨by decide,
   (c2_amended ⟨2026, 12, 30⟩ false ['5'] (by decide) (by decide) (by decide)).1
     (by decide),
   (c2_amended ⟨2026, 1, 1⟩ false ['3'] (by decide) (by decide) (by decide)).2
     (by decide)⟩

/-- **C3**: the candidate lists equal the spec's ordered sequences; a
failing candidate makes the loop proceed to the rest of the list; and on
every non-relative, non-empty input the result is exactly the first
success of the spec-ordered candidate list (or `DateParseError` with the
normalized text when none succeeds). -/
theorem c3_ordered_formats :
    (formats false = specFormatsMonthFirst ∧
     formats true = specFormatsDayFirst) ∧
    (∀ (today : Date) (f : Fmt) (fs : List Fmt) (l : List Char),
      applyFmt today f l = none →
      tryFormats today (f :: fs) l = tryFormats today fs l) ∧
    (∀ (s : String) (mode : Bool) (today : Date), s ≠ "" →
      matchRel (normalizeArg s) = none →
      transform_date (some s) mode today =
        match (specFormats mode).findSome?
            (fun f => applyFmt today f (normalizeArg s)) with
        | some d => Except.ok (serialize d)
        | none => Except.error (PyError.valueError
            ("Could not parse date: " ++ String.mk (normalizeArg s)))) := by
  refine ⟨⟨rfl, rfl⟩, tryFormats_skip, ?_⟩
  intro s mode today hne hrel
  rw [transform_date_some_arg _ _ _ hne, parse_nonempty_noRel _ _ _ hrel]
  have hsf : specFormats mode = formats mode := by cases mode <;> rfl
  rw [hsf, ← tryFormats_eq_findSome]
  cases ht : tryFormats today (formats mode) (normalizeArg s) with
  | some d => rw [parse_absolute_some _ _ _ _ ht]
  | none => rw [parse_absolute_none _ _ _ ht]

/-- **C3** witness: the candidate-by-candidate description evaluated at
`"2-30"` (a syntactically matching but calendar-invalid candidate) in
month-first mode. -/
theorem c3_witness :
    transform_date (some "2-30") false ⟨2026, 10, 12⟩ =
      match (specFormats false).findSome?
          (fun f => applyFmt ⟨2026, 10, 12⟩ f (normalizeArg "2-30")) with
      | some d => Except.ok (serialize d)
      | none => Except.error (PyError.valueError
          ("Could not parse date: " ++ String.mk (normalizeArg "2-30"))) :=
  c3_ordered_formats.2.2 "2-30" false ⟨2026, 10, 12⟩ (by decide) (by decide)

/-- **C4** (counterexample to the same-mode round trip): in day-first
mode `"5/4"` produces `"2026-04-05"`, but re-parsing `"2026-04-05"` in
day-first mode goes through `"%Y-%d-%m"`, which reads the two trailing
fields in swapped order and yields `"2026-05-04"`. -/
theorem c4_cex :
    transform_date (some "5/4") true ⟨2026, 10, 12⟩ = .ok "2026-04-05" ∧
    transform_date (some "2026-04-05") true ⟨2026, 10, 12⟩ =
      .ok "2026-05-04" ∧
    (Except.ok "2026-05-04" : Except PyError String) ≠ .ok "2026-04-05" := by
  refine ⟨?_, ?_, ?_⟩ <;> decide

/-- **C4** (amended): every date string producible as output of
`transform_date` (in either mode), fed back with `dayFirst = false`,
parses via the year-bearing dashed candidate `"%Y-%m-%d"` and yields the
same date string. -/
theorem c4_amended :
    ∀ (arg : Option String) (mode : Bool) (today : Date) (s : String),
      validDate today → transform_date arg mode today = .ok s →
      transform_date (some s) false today = .ok s := by
  intro arg mode today s hv h
  obtain ⟨d, hvd, rfl⟩ := transform_date_ok_form arg mode today s hv h
  exact roundtrip_monthFirst d hvd today

/-- **C4** witness: the day-first output `"2026-04-03"` of `"3/4"`
round-trips through month-first mode. -/
theorem c4_witness :
    validDate ⟨2026, 10, 12⟩ ∧
    transform_date (some "2026-04-03") false ⟨2026, 10, 12⟩ =
      .ok "2026-04-03" :=
  ⟨by decide,
   c4_amended (some "3/4") true ⟨2026, 10, 12⟩ "2026-04-03" (by decide)
     (by decide)⟩

/-- **C5** (counterexample to "identical results when only one
interpretation is valid"): for `"13/4"` only the day-first reading is a
valid calendar date, yet the two modes do not produce identical results:
day-first returns `"2026-04-13"` while month-first raises
`DateParseError`. -/
theorem c5_cex :
    transform_date (some "13/4") true ⟨2026, 10, 12⟩ = .ok "2026-04-13" ∧
    transform_date (some "13/4") false ⟨2026, 10, 12⟩ =
      .error (.valueError "Could not parse date: 13/4") ∧
    transform_date (some "13/4") false ⟨2026, 10, 12⟩ ≠
      transform_date (some "13/4") true ⟨2026, 10, 12⟩ := by
  refine ⟨?_, ?_, ?_⟩ <;> decide

/-- **C5** (amended): for a two-field numeric input with field values
`a`, `b`: (i) when both interpretations are valid and distinct
(`a, b ≤ 12`, `a ≠ b`) the two modes produce different results; (ii)
when only the day-first interpretation is a valid calendar date
(`13 ≤ a ≤ 31`, `b ≤ 12`, `a` within month `b`'s year-1900 length),
day-first mode returns that date with the current year while month-first
mode raises `DateParseError`; (iii) symmetrically when only the
month-first interpretation is valid, month-first returns the date (with
the code's default year 1900) and day-first raises. -/
theorem c5_amended :
    ∀ (today : Date) (sep : Char) (sa sb : List Char) (a b : Nat),
      validDate today → (sep = '/' ∨ sep = '-') →
      fieldRep sa a → fieldRep sb b →
      ((1 ≤ a ∧ a ≤ 12 ∧ 1 ≤ b ∧ b ≤ 12 ∧ a ≠ b →
        transform_date (some (String.mk (sa ++ sep :: sb))) false today ≠
          transform_date (some (String.mk (sa ++ sep :: sb))) true today) ∧
      (13 ≤ a ∧ a ≤ 31 ∧ 1 ≤ b ∧ b ≤ 12 ∧ a ≤ daysInMonth 1900 b →
        transform_date (some (String.mk (sa ++ sep :: sb))) false today =
          .error (.valueError
            ("Could not parse date: " ++ String.mk (sa ++ sep :: sb))) ∧
        transform_date (some (String.mk (sa ++ sep :: sb))) true today =
          .ok (serialize ⟨today.year, b, a⟩)) ∧
      (1 ≤ a ∧ a ≤ 12 ∧ 13 ≤ b ∧ b ≤ 31 ∧ b ≤ daysInMonth 1900 a →
        transform_date (some (String.mk (sa ++ sep :: sb))) false today =
          .ok (serialize ⟨1900, a, b⟩) ∧
        transform_date (some (String.mk (sa ++ sep :: sb))) true today =
          .error (.valueError
            ("Could not parse date: " ++ String.mk (sa ++ sep :: sb))))) := by
  intro today sep sa sb a b hv hsep ha hb
  have hF := twoField_false today sep sa sb a b hsep ha hb
  have hT := twoField_true today sep sa sb a b hsep ha hb
  obtain ⟨hty1, hty2, -, -, -, -⟩ := hv
  refine ⟨?_, ?_, ?_⟩
  · -- (i) both interpretations valid, distinct fields
    rintro ⟨ha1, ha2, hb1, hb2, hab⟩
    have hdimA := daysInMonth_bounds 1900 a ha1 ha2
    have hdimB := daysInMonth_bounds 1900 b hb1 hb2
    have hdimTB := daysInMonth_bounds today.year b hb1 hb2
    have hSF : (monthField sa).bind (fun m => (dayField sb).bind
        (fun dd => mkDate 1900 m dd)) = some ⟨1900, a, b⟩ := by
      rw [monthField_rep sa a ha, if_pos ⟨ha1, ha2⟩,
          dayField_rep sb b hb, if_pos ⟨hb1, by omega⟩]
      simp [mkDate_pos 1900 a b (by simp only [validDate]; omega)]
    have hST : (dayField sa).bind (fun dd => (monthField sb).bind
        (fun m => (mkDate 1900 m dd).bind
          (fun e => mkDate today.year e.month e.day))) =
        some ⟨today.year, b, a⟩ := by
      rw [dayField_rep sa a ha, if_pos ⟨ha1, by omega⟩,
          monthField_rep sb b hb, if_pos ⟨hb1, hb2⟩]
      simp [mkDate_pos 1900 b a (by simp only [validDate]; omega),
            mkDate_pos today.year b a (by simp only [validDate]; omega)]
    rw [hF, hSF, hT, hST]
    intro hcon
    have hser := Except.ok.inj hcon
    have hmeq := serialize_month_inj ⟨1900, a, b⟩ ⟨today.year, b, a⟩
      (by simp; omega) (by simp; omega) hser
    simp only at hmeq
    exact hab hmeq
  · -- (ii) only the day-first interpretation is calendar-valid
    rintro ⟨ha13, ha31, hb1, hb2, hdim⟩
    have hdimT := daysInMonth_1900_le today.year b hb1 hb2
    have hSF : (monthField sa).bind (fun m => (dayField sb).bind
        (fun dd => mkDate 1900 m dd)) = none := by
      rw [monthField_rep sa a ha, if_neg (by omega)]
      rfl
    have hST : (dayField sa).bind (fun dd => (monthField sb).bind
        (fun m => (mkDate 1900 m dd).bind
          (fun e => mkDate today.year e.month e.day))) =
        some ⟨today.year, b, a⟩ := by
      rw [dayField_rep sa a ha, if_pos ⟨by omega, ha31⟩,
          monthField_rep sb b hb, if_pos ⟨hb1, hb2⟩]
      simp [mkDate_pos 1900 b a (by simp only [validDate]; omega),
            mkDate_pos today.year b a (by simp only [validDate]; omega)]
    rw [hF, hSF, hT, hST]
    exact ⟨rfl, rfl⟩
  · -- (iii) only the month-first interpretation is calendar-valid
    rintro ⟨ha1, ha2, hb13, hb31, hdim⟩
    have hSF : (monthField sa).bind (fun m => (dayField sb).bind
        (fun dd => mkDate 1900 m dd)) = some ⟨1900, a, b⟩ := by
      rw [monthField_rep sa a ha, if_pos ⟨ha1, ha2⟩,
          dayField_rep sb b hb, if_pos ⟨by omega, hb31⟩]
      simp [mkDate_pos 1900 a b (by simp only [validDate]; omega)]
    have hST : (dayField sa).bind (fun dd => (monthField sb).bind
        (fun m => (mkDate 1900 m dd).bind
          (fun e => mkDate today.year e.month e.day))) = none := by
      rw [dayField_rep sa a ha, if_pos ⟨ha1, by omega⟩,
          monthField_rep sb b hb, if_neg (by omega)]
      rfl
    rw [hF, hSF, hT, hST]
    exact ⟨rfl, rfl⟩

/-- **C5** witness: the amended claim applied at `"13/4"` (only the
day-first reading valid) with `today = 2026-10-12`. -/
theorem c5_witness :
    (transform_date (some (String.mk (['1', '3'] ++ '/' :: ['4']))) false
        ⟨2026, 10, 12⟩ =
      .error (.valueError
        ("Could not parse date: " ++ String.mk (['1', '3'] ++ '/' :: ['4']))) ∧
    transform_date (some (String.mk (['1', '3'] ++ '/' :: ['4']))) true
        ⟨2026, 10, 12⟩ =
      .ok (serialize ⟨2026, 4, 13⟩)) ∧
    serialize ⟨2026, 4, 13⟩ = "2026-04-13" :=
  ⟨(c5_amended ⟨2026, 10, 12⟩ '/' ['1', '3'] ['4'] 13 4 (by decide)
      (Or.inl rfl) (by decide) (by decide)).2.1
      ⟨by decide, by decide, by decide, by decide, by decide⟩,
   by decide⟩

/-- **C6**: every non-empty expression that matches neither the
relative-date grammar nor any of the mode's candidate formats makes
`transform_date` raise `ValueError` carrying the normalized-case input
text — it never falls back to today's date. -/
theorem c6_invalid_raises :
    ∀ (s : String) (mode : Bool) (today : Date), s ≠ "" →
      matchRel (normalizeArg s) = none →
      (formats mode).all
        (fun f => (applyFmt today f (normalizeArg s)).isNone) = true →
      transform_date (some s) mode today =
        .error (.valueError
          ("Could not parse date: " ++ String.mk (normalizeArg s))) := by
  intro s mode today hne hrel hall
  rw [transform_date_some_arg _ _ _ hne, parse_nonempty_noRel _ _ _ hrel]
  apply parse_absolute_none
  apply tryFormats_none
  intro f hf
  exact Option.isNone_iff_eq_none.mp ((List.all_eq_true.mp hall) f hf)

/-- **C6** witness: the four example expressions all raise
`DateParseError` with their normalized text. -/
theorem c6_witness :
    transform_date (some "foo") false ⟨2026, 10, 12⟩ =
      .error (.valueError "Could not parse date: foo") ∧
    transform_date (some "13/45") false ⟨2026, 10, 12⟩ =
      .error (.valueError "Could not parse date: 13/45") ∧
    transform_date (some "t+") false ⟨2026, 10, 12⟩ =
      .error (.valueError "Could not parse date: t+") ∧
    transform_date (some "t++5") false ⟨2026, 10, 12⟩ =
      .error (.valueError "Could not parse date: t++5") :=
  ⟨c6_invalid_raises "foo" false ⟨2026, 10, 12⟩ (by decide) (by decide)
     (by decide),
   c6_invalid_raises "13/45" false ⟨2026, 10, 12⟩ (by decide) (by decide)
     (by decide),
   c6_invalid_raises "t+" false ⟨2026, 10, 12⟩ (by decide) (by decide)
     (by decide),
   c6_invalid_raises "t++5" false ⟨2026, 10, 12⟩ (by decide) (by decide)
     (by decide)⟩

/-- **C7** (counterexample to unrestricted whitespace-insensitivity):
inserting a space into the empty input changes the result — `""` is
falsy and returns today, while `" "` normalizes to the empty expression
and raises `DateParseError`. -/
theorem c7_cex :
    transform_date (some "") false ⟨2026, 10, 12⟩ = .ok "2026-10-12" ∧
    normalizeArg "" = normalizeArg " " ∧
    transform_date (some " ") false ⟨2026, 10, 12⟩ =
      .error (.valueError "Could not parse date: ") ∧
    transform_date (some "") false ⟨2026, 10, 12⟩ ≠
      transform_date (some " ") false ⟨2026, 10, 12⟩ := by
  refine ⟨?_, ?_, ?_, ?_⟩ <;> decide

/-- **C7** (amended): any two inputs with the same whitespace-stripped,
lower-cased form produce identical results, provided both or neither are
the empty string (whose truthiness check precedes stripping). -/
theorem c7_amended :
    ∀ (s t : String) (mode : Bool) (today : Date),
      normalizeArg s = normalizeArg t → (s = "" ↔ t = "") →
      transform_date (some s) mode today =
        transform_date (some t) mode today := by
  intro s t mode today hnorm hiff
  by_cases hs : s = ""
  · have ht : t = "" := hiff.mp hs
    subst hs; subst ht; rfl
  · have ht : t ≠ "" := fun hcon => hs (hiff.mpr hcon)
    rw [transform_date_some_arg _ _ _ hs, transform_date_some_arg _ _ _ ht,
        hnorm]

/-- **C7** witness: `"T + 5"`, `"T+5"` and `"t+5"` produce identical
results. -/
theorem c7_witness :
    transform_date (some "T + 5") false ⟨2026, 10, 12⟩ =
      transform_date (some "t+5") false ⟨2026, 10, 12⟩ ∧
    transform_date (some "T+5") false ⟨2026, 10, 12⟩ =
      transform_date (some "t+5") false ⟨2026, 10, 12⟩ ∧
    transform_date (some "t+5") false ⟨2026, 10, 12⟩ = .ok "2026-10-17" :=
  ⟨c7_amended "T + 5" "t+5" false ⟨2026, 10, 12⟩ (by decide) (by decide),
   c7_amended "T+5" "t+5" false ⟨2026, 10, 12⟩ (by decide) (by decide),
   by decide⟩

/-- **C8** (code evaluated at the failing input): `gmtOffset = 50400`
seconds is accepted as exactly 14 hours and `60000` seconds is rejected
as out of range, but a non-numeric `gmtOffset` raises an uncaught
`TypeError` at the division `data["gmtOffset"]/3600` (line 185) — it is
never turned into the `None` the claim (and the dead `isinstance` check
on line 192) promise. -/
theorem c8_code_eval :
    get_utc_offset (some 40) (some (-70))
      (.response (some (.jnum 50400))) = .retOffset 14 ∧
    get_utc_offset (some 40) (some (-70))
      (.response (some (.jnum 60000))) = .retNone ∧
    get_utc_offset (some 40) (some (-70))
      (.response (some (.jstr "+0100"))) = .typeError ∧
    get_utc_offset (some 40) (some (-70))
      (.response (some (.jstr "+0100"))) ≠ .retNone := by
  have h3 : get_utc_offset (some 40) (some (-70))
      (.response (some (.jstr "+0100"))) = .typeError := rfl
  refine ⟨?_, ?_, h3, ?_⟩
  · unfold get_utc_offset
    rw [if_neg (by simp)]
    show (if (50400 : ℚ) / 3600 < -12 ∨ (50400 : ℚ) / 3600 > 14
          then OffsetResult.retNone
          else OffsetResult.retOffset ((50400 : ℚ) / 3600)) =
        OffsetResult.retOffset 14
    have h50 : (50400 : ℚ) / 3600 = 14 := by norm_num
    rw [h50, if_neg (by norm_num)]
  · unfold get_utc_offset
    rw [if_neg (by simp)]
    show (if (60000 : ℚ) / 3600 < -12 ∨ (60000 : ℚ) / 3600 > 14
          then OffsetResult.retNone
          else OffsetResult.retOffset ((60000 : ℚ) / 3600)) =
        OffsetResult.retNone
    rw [if_pos (Or.inr (by norm_num))]
  · rw [h3]
    decide

/-- **C9**: an expression consisting only of whitespace is not treated
as absent: the truthiness check on line 228 happens before stripping, so
the stripped expression is empty, matches nothing, and `transform_date`
raises `ValueError` instead of returning today's date. -/
theorem c9_whitespace_raises :
    ∀ (s : String) (mode : Bool) (today : Date), s ≠ "" →
      s.data.all isPySpace = true →
      transform_date (some s) mode today =
        .error (.valueError "Could not parse date: ") := by
  intro s mode today hne hsp
  rw [transform_date_some_arg _ _ _ hne, normalizeArg_allspace s hsp]
  have h1 : matchRel [] = none := rfl
  rw [parse_nonempty_noRel _ _ _ h1]
  exact parse_absolute_nil today mode

/-- **C9** witness: three spaces raise `DateParseError`. -/
theorem c9_witness :
    transform_date (some "   ") false ⟨2026, 10, 12⟩ =
      .error (.valueError "Could not parse date: ") :=
  c9_whitespace_raises "   " false ⟨2026, 10, 12⟩ (by decide) (by decide)

/-- **C10**: `get_utc_offset` returns `None` whenever latitude or
longitude is missing, independently of the transport outcome — the
request is never consulted. -/
theorem c10_missing_coords :
    ∀ (latitude longitude : Option ℚ) (http : HttpOutcome),
      latitude = none ∨ longitude = none →
      get_utc_offset latitude longitude http = .retNone := by
  intro lat lng http h
  unfold get_utc_offset
  rw [if_pos h]

/-- **C10** witness: a missing latitude (even with a perfectly valid
response available) and a missing longitude both yield `None`. -/
theorem c10_witness :
    get_utc_offset none (some 5) (.response (some (.jnum 50400))) =
      .retNone ∧
    get_utc_offset (some 40) none .reqError = .retNone :=
  ⟨c10_missing_coords none (some 5) (.response (some (.jnum 50400)))
     (Or.inl rfl),
   c10_missing_coords (some 40) none .reqError (Or.inr rfl)⟩

end SunSpec
